import Mathlib

/-!
Verification of the deferred-render / slot-redistribution pattern of the
`webcomponents` repository (custom elements wrapping Bootstrap widgets).

The embedding below translates, from the JavaScript source:
  * the child-redistribution loops of `BsModal._render`
    (src/components/modal/modal.js), `BsToast._render` (BsToast source file)
    and `BsAlert._render` (src/components/alert/alert.js);
  * the lifecycle state machine of `BsModal`
    (`connectedCallback` / `disconnectedCallback` / the deferred `_render`
    callback / `_ensureModal` / `show` / `hide` / `toggle` / `dispose`),
    together with `BsTooltip`'s pass-through methods;
  * the guarded global-resource injection of `BsCodeBlock._ensureResources`
    and the retry interval of `BsCodeBlock._highlight`;
  * the `fade` class computation of `BsModal._render`.

DOM child nodes are modelled by `DNode`: an identity tag, whether the node is
an element (`Node.ELEMENT_NODE`), and the value of its `slot` attribute
(`none` when `hasAttribute('slot')` is false).  Class-list mutations that the
redistribution performs on some children (e.g. `classList.add('alert-heading')`)
do not move, drop or duplicate nodes and are not tracked.
-/

/-- A captured child node: identity, element-ness, and `slot` attribute. -/
structure DNode where
  id : Nat
  isElement : Bool
  slot : Option String
deriving DecidableEq, Repr

/-! ## BsModal._render: child redistribution (modal.js lines 105-145)

The generated markup holds three node-receiving regions: `.modal-body`,
`.modal-footer` (both initially empty) and `.modal-title` (initially holding
the text of the `title` attribute, i.e. default content exactly when that
text is nonempty).  The loop over the captured fragment appends each child to
body or footer, or — for `slot="title"` — clears the title container
(`titleContainer.innerHTML = ''`) and appends the child there. -/

/-- State of the modal's three node-receiving regions during redistribution.
`titleDefault` records whether the attribute-derived default title text is
still present in the `.modal-title` container. -/
structure ModalRegions where
  body : List DNode
  footer : List DNode
  title : List DNode
  titleDefault : Bool
deriving DecidableEq, Repr

/-- Regions as they stand right after `modalElement.innerHTML = <template>`:
body and footer empty, title containing the `title` attribute's text
(nonempty text iff the attribute string is nonempty). -/
def modalRegInit (titleAttr : String) : ModalRegions :=
  { body := [], footer := [], title := [], titleDefault := titleAttr != "" }

/-- One iteration of the `forEach` redistribution loop of `BsModal._render`:
element children carrying a `slot` attribute go to the matching region
(`title` clears the container first, an unknown name falls through to the
body); every other child goes to the body. -/
def modalPlace (r : ModalRegions) (c : DNode) : ModalRegions :=
  match c.isElement, c.slot with
  | true, some s =>
    if s = "body" then { r with body := r.body ++ [c] }
    else if s = "footer" then { r with footer := r.footer ++ [c] }
    else if s = "title" then { r with title := [c], titleDefault := false }
    else { r with body := r.body ++ [c] }
  | _, _ => { r with body := r.body ++ [c] }

/-- The complete redistribution pass of `BsModal._render` over the captured
children, in original document order. -/
def modalDistribute (titleAttr : String) (cs : List DNode) : ModalRegions :=
  cs.foldl modalPlace (modalRegInit titleAttr)

/-- `BsModal._render` removes the footer container when it received no nodes
(`footerContainer.childNodes.length === 0`); this is whether it is kept. -/
def modalFooterKept (r : ModalRegions) : Bool :=
  !r.footer.isEmpty

/-- A child the modal loop routes to the title region. -/
def goesTitle (c : DNode) : Bool :=
  c.isElement && c.slot == some "title"

/-- A child the modal loop routes to the footer region. -/
def goesFooter (c : DNode) : Bool :=
  c.isElement && c.slot == some "footer"

/-- A child the modal loop routes to the body region (everything else:
`slot="body"`, unknown slot names, non-elements, and unmarked children). -/
def goesModalBody (c : DNode) : Bool :=
  !goesTitle c && !goesFooter c

/-! ## BsToast._render: child redistribution (toast source, distribution loop)

The toast distributes into three holding containers `iconSlot`, `headerSlot`,
`bodySlot` by plain appends, with no clearing anywhere. -/

/-- State of the toast's three holding containers. -/
structure ToastRegions where
  icon : List DNode
  header : List DNode
  body : List DNode
deriving DecidableEq, Repr

/-- One iteration of the toast's redistribution loop. -/
def toastPlace (r : ToastRegions) (c : DNode) : ToastRegions :=
  match c.isElement, c.slot with
  | true, some s =>
    if s = "icon" then { r with icon := r.icon ++ [c] }
    else if s = "header" then { r with header := r.header ++ [c] }
    else { r with body := r.body ++ [c] }
  | _, _ => { r with body := r.body ++ [c] }

/-- The complete redistribution pass of `BsToast._render`. -/
def toastDistribute (cs : List DNode) : ToastRegions :=
  cs.foldl toastPlace { icon := [], header := [], body := [] }

/-- A child the toast loop routes to the icon container. -/
def goesIcon (c : DNode) : Bool :=
  c.isElement && c.slot == some "icon"

/-- A child the toast loop routes to the header container. -/
def goesHeader (c : DNode) : Bool :=
  c.isElement && c.slot == some "header"

/-- A child the toast loop routes to the body container. -/
def goesToastBody (c : DNode) : Bool :=
  !goesIcon c && !goesHeader c

/-! ## BsAlert._render: child redistribution (alert.js lines 74-113)

The alert pre-populates `headingContainer` with an `<h4>` built from the
`heading` attribute when that attribute is truthy, then distributes children:
`slot="heading"` clears the heading container and appends there (the loop also
adds a class to the child, which does not affect node placement); everything
else goes to the body container. -/

/-- State of the alert's heading/body containers; `headingDefault` records
whether the attribute-derived `<h4>` default heading is still present. -/
structure AlertRegions where
  heading : List DNode
  body : List DNode
  headingDefault : Bool
deriving DecidableEq, Repr

/-- JavaScript truthiness of `getAttribute('heading')`: `null` and the empty
string are falsy. -/
def attrTruthy : Option String → Bool
  | none => false
  | some s => s != ""

/-- Containers as initialised before the alert's distribution loop. -/
def alertRegInit (headingAttr : Option String) : AlertRegions :=
  { heading := [], body := [], headingDefault := attrTruthy headingAttr }

/-- One iteration of the alert's redistribution loop. -/
def alertPlace (r : AlertRegions) (c : DNode) : AlertRegions :=
  match c.isElement, c.slot with
  | true, some s =>
    if s = "heading" then { r with heading := [c], headingDefault := false }
    else { r with body := r.body ++ [c] }
  | _, _ => { r with body := r.body ++ [c] }

/-- The complete redistribution pass of `BsAlert._render`. -/
def alertDistribute (headingAttr : Option String) (cs : List DNode) : AlertRegions :=
  cs.foldl alertPlace (alertRegInit headingAttr)

/-- A child the alert loop routes to the heading container. -/
def goesHeading (c : DNode) : Bool :=
  c.isElement && c.slot == some "heading"

example :
    modalDistribute "" [⟨0, true, some "footer"⟩, ⟨1, true, some "x"⟩, ⟨2, false, none⟩] =
      { body := [⟨1, true, some "x"⟩, ⟨2, false, none⟩],
        footer := [⟨0, true, some "footer"⟩], title := [], titleDefault := false } := by
  decide

example :
    (modalDistribute "t" [⟨0, true, some "title"⟩, ⟨1, true, some "title"⟩]).title =
      [⟨1, true, some "title"⟩] := by
  decide

/-! ## BsModal lifecycle state machine (modal.js lines 31-209)

Fields of a live `BsModal` instance: `_initialized`, the stored plugin handle
`this.modal`, plus — to state the claims — how many times the internal DOM
structure has been built (`buildCount`, incremented where `_render` passes its
guard) and how many deferred `setTimeout` callbacks scheduled by
`connectedCallback` are still pending (`pending`).  The ambient environment is
a single flag `env`: whether `window.bootstrap && window.bootstrap.Modal` is
present.  Handles are tracked as present/absent (`modal : Bool`); calls made
on a handle are emitted as `PluginOp`s. -/

/-- An operation delegated to the external Bootstrap plugin handle. -/
inductive PluginOp where
  | show
  | hide
  | toggle
  | dispose
deriving DecidableEq, Repr

/-- Abstract state of one `BsModal` instance. -/
structure MState where
  initialized : Bool
  buildCount : Nat
  modal : Bool
  pending : Nat
deriving DecidableEq, Repr

/-- State of a freshly constructed `BsModal` (its `constructor`). -/
def initModal : MState :=
  { initialized := false, buildCount := 0, modal := false, pending := 0 }

/-- `BsModal._render` (lines 55-151): guarded by `_initialized`; sets the flag
first, builds the internal markup once, and creates the plugin handle exactly
when the Bootstrap global is present. -/
def renderStep (env : Bool) (s : MState) : MState :=
  if s.initialized then s
  else { initialized := true, buildCount := s.buildCount + 1, modal := env,
         pending := s.pending }

/-- `BsModal._ensureModal` (lines 201-209): render synchronously if needed,
then create the handle from the rendered `.modal` element when absent and the
Bootstrap global is present. -/
def ensureModal (env : Bool) (s : MState) : MState :=
  let s1 := if !s.initialized then renderStep env s else s
  if !s1.modal && env then { s1 with modal := true } else s1

/-- Lifecycle events delivered by the platform: `connectedCallback`,
`disconnectedCallback`, and the firing of one scheduled deferred-render
timeout. -/
inductive MEvent where
  | attach
  | detach
  | timerFire
deriving DecidableEq, Repr

/-- One lifecycle event of `BsModal`.  `connectedCallback` returns at once
when initialized, otherwise schedules a deferred `_render`;
`disconnectedCallback` disposes a held handle but leaves `_initialized`
untouched (and cancels no timeout); a firing timeout consumes one pending
callback and runs `_render`. -/
def eventStep (env : Bool) (s : MState) : MEvent → MState
  | .attach => if s.initialized then s else { s with pending := s.pending + 1 }
  | .detach => if s.modal then { s with modal := false } else s
  | .timerFire =>
      if s.pending = 0 then s
      else renderStep env { s with pending := s.pending - 1 }

/-- Run a sequence of lifecycle events. -/
def runEvents (env : Bool) (evs : List MEvent) (s : MState) : MState :=
  evs.foldl (eventStep env) s

/-- Fire `k` deferred timeouts in a row. -/
def fireTimers (env : Bool) : Nat → MState → MState
  | 0, s => s
  | k + 1, s => fireTimers env k (eventStep env s .timerFire)

/-- Let every deferred `_render` callback still pending fire. -/
def flushTimers (env : Bool) (s : MState) : MState :=
  fireTimers env s.pending s

/-- `BsModal.show` (lines 156-161): ensure, then delegate when a handle
exists. -/
def modalShow (env : Bool) (s : MState) : MState × List PluginOp :=
  let s1 := ensureModal env s
  (s1, if s1.modal then [PluginOp.show] else [])

/-- `BsModal.hide` (lines 166-170): delegate only when a handle exists; note
it does not call `_ensureModal`. -/
def modalHide (s : MState) : MState × List PluginOp :=
  (s, if s.modal then [PluginOp.hide] else [])

/-- `BsModal.toggle` (lines 175-180): ensure, then delegate when a handle
exists. -/
def modalToggle (env : Bool) (s : MState) : MState × List PluginOp :=
  let s1 := ensureModal env s
  (s1, if s1.modal then [PluginOp.toggle] else [])

/-- `BsModal.dispose` (lines 194-199): delegate disposal and null the stored
reference when a handle exists, otherwise do nothing. -/
def modalDispose (s : MState) : MState × List PluginOp :=
  if s.modal then ({ s with modal := false }, [PluginOp.dispose]) else (s, [])

/-- Everything that can happen to a `BsModal` instance: lifecycle events and
public method calls. -/
inductive MCall where
  | attach
  | detach
  | timerFire
  | render
  | show
  | hide
  | toggle
  | dispose
deriving DecidableEq, Repr

/-- One call on a `BsModal` instance, returning the successor state and the
plugin operations it delegated.  `detach` delegates `dispose()` to a held
handle (lines 48-53). -/
def mcallStep (env : Bool) (s : MState) : MCall → MState × List PluginOp
  | .attach => (eventStep env s .attach, [])
  | .detach => (eventStep env s .detach, if s.modal then [PluginOp.dispose] else [])
  | .timerFire => (eventStep env s .timerFire, [])
  | .render => (renderStep env s, [])
  | .show => modalShow env s
  | .hide => modalHide s
  | .toggle => modalToggle env s
  | .dispose => modalDispose s

/-- Run a sequence of calls, accumulating delegated plugin operations. -/
def runCalls (env : Bool) : List MCall → MState → MState × List PluginOp
  | [], s => (s, [])
  | c :: cs, s =>
    let q := mcallStep env s c
    let r := runCalls env cs q.1
    (r.1, q.2 ++ r.2)

/-! ## BsTooltip pass-through methods (tooltip source, lines 60-118)

`BsTooltip._render` creates the handle directly (no `_ensure` helper), and
`show` / `hide` / `toggle` delegate only when `this.tooltip` exists —
none of them materializes synchronously. -/

/-- Abstract state of one `BsTooltip` instance. -/
structure TState where
  initialized : Bool
  tooltip : Bool
deriving DecidableEq, Repr

/-- `BsTooltip.show`: delegate only when a handle exists. -/
def tooltipShow (s : TState) : TState × List PluginOp :=
  (s, if s.tooltip then [PluginOp.show] else [])

/-- `BsTooltip.hide`: delegate only when a handle exists. -/
def tooltipHide (s : TState) : TState × List PluginOp :=
  (s, if s.tooltip then [PluginOp.hide] else [])

/-- `BsTooltip.toggle`: delegate only when a handle exists. -/
def tooltipToggle (s : TState) : TState × List PluginOp :=
  (s, if s.tooltip then [PluginOp.toggle] else [])

/-- `BsTooltip.dispose` (lines 104-118): when a handle exists, suppress the
in-flight transition callback, dispose, and null the reference; otherwise a
no-op. -/
def tooltipDispose (s : TState) : TState × List PluginOp :=
  if s.tooltip then ({ s with tooltip := false }, [PluginOp.dispose]) else (s, [])

/-! ## BsCodeBlock._ensureResources (code_block.js lines 99-140)

Document-global state touched by the injection: the number of
`<style id="bs-code-block-styles">` elements, of stylesheet links matching
`link[href*="highlight.js"]`, of links matching `link[href*="bootstrap-icons"]`,
and of scripts matching `script[src*="highlight.js"]`.  Each `appendChild`
adds one element and is guarded by the corresponding existence check; the
script injection is additionally skipped when `window.hljs` already exists. -/

/-- Counts of the shared elements `_ensureResources` can inject. -/
structure DocSt where
  styleTag : Nat
  hljsCss : Nat
  iconsCss : Nat
  hljsScript : Nat
deriving DecidableEq, Repr

/-- `BsCodeBlock._ensureResources`, with `hljs` the presence of
`window.hljs`: four guarded injections, in source order. -/
def ensureResources (hljs : Bool) (d : DocSt) : DocSt :=
  let d1 := if d.styleTag = 0 then { d with styleTag := d.styleTag + 1 } else d
  let d2 := if d1.hljsCss = 0 then { d1 with hljsCss := d1.hljsCss + 1 } else d1
  let d3 := if d2.iconsCss = 0 then { d2 with iconsCss := d2.iconsCss + 1 } else d2
  if !hljs && d3.hljsScript = 0 then { d3 with hljsScript := d3.hljsScript + 1 } else d3

/-- A document with none of the shared resources injected yet. -/
def emptyDoc : DocSt :=
  { styleTag := 0, hljsCss := 0, iconsCss := 0, hljsScript := 0 }

/-! ## BsCodeBlock._highlight retry interval (code_block.js lines 83-97)

When `window.hljs` is absent, `_highlight` starts `setInterval(cb, 100)` whose
callback highlights and clears the interval once `window.hljs` appears, and a
`setTimeout(() => clearInterval(interval), 5000)` gives up after 5000 ms.  We
model discrete time advancing in 100 ms ticks: at each tick past 5000 ms the
give-up timeout has already fired, so the interval is inactive; otherwise an
active interval runs its callback once (one poll), clearing itself when
`window.hljs` has arrived by then.  `hljsAt` is the arrival time of the
asynchronously loaded library (`none` = it never arrives). -/

/-- State of the retry interval: current time (ms), whether the interval is
still active, and how many times its callback has run. -/
structure PollSt where
  time : Nat
  intervalActive : Bool
  polls : Nat
deriving DecidableEq, Repr

/-- The interval as just installed by `_highlight` when `window.hljs` was
absent. -/
def pollInit : PollSt :=
  { time := 0, intervalActive := true, polls := 0 }

/-- Whether `window.hljs` is present at time `t`. -/
def hljsPresent (hljsAt : Option Nat) (t : Nat) : Bool :=
  match hljsAt with
  | none => false
  | some a => a ≤ t

/-- Advance to the next 100 ms tick.  Past 5000 ms the give-up timeout has
cleared the interval; before that, an active interval's callback runs once and
clears the interval itself when the library has arrived. -/
def pollTick (hljsAt : Option Nat) (s : PollSt) : PollSt :=
  let t := s.time + 100
  if 5000 < t then { s with time := t, intervalActive := false }
  else if s.intervalActive then
    if hljsPresent hljsAt t then
      { time := t, intervalActive := false, polls := s.polls + 1 }
    else
      { time := t, intervalActive := true, polls := s.polls + 1 }
  else { s with time := t }

/-! ## BsModal fade class (modal.js lines 60-83)

`const fade = this.hasAttribute('fade') || this.getAttribute('fade') !== 'false'`
and the class assembly of the generated `div.modal`. -/

/-- The modal's `fade` flag: `hasAttribute('fade') || getAttribute('fade') !== 'false'`. -/
def fadeEnabled (fadeAttr : Option String) : Bool :=
  fadeAttr.isSome || fadeAttr != some "false"

/-- Class list of the generated inner `div.modal`: `'modal'`, then `'fade'`
when the flag holds, then the host element's `class` attribute when truthy. -/
def modalClassList (fadeAttr : Option String) (hostCls : Option String) : List String :=
  ["modal"] ++ (if fadeEnabled fadeAttr then ["fade"] else []) ++
    (if attrTruthy hostCls then [hostCls.getD ""] else [])

example : fadeEnabled (some "false") = true := by decide
example : fadeEnabled none = true := by decide
example : (ensureResources false (ensureResources false emptyDoc)) =
    ensureResources false emptyDoc := by decide

/-! ## Characterisation of the redistribution loops -/

lemma modalPlace_body (r : ModalRegions) (c : DNode) :
    (modalPlace r c).body = r.body ++ if goesModalBody c then [c] else [] := by
  rcases c with ⟨n, el, slot⟩
  cases el <;> rcases slot with _ | s <;>
    simp [modalPlace, goesModalBody, goesTitle, goesFooter]
  split_ifs with h1 h2 h3 <;> simp_all

lemma modalPlace_footer (r : ModalRegions) (c : DNode) :
    (modalPlace r c).footer = r.footer ++ if goesFooter c then [c] else [] := by
  rcases c with ⟨n, el, slot⟩
  cases el <;> rcases slot with _ | s <;>
    simp [modalPlace, goesFooter]
  split_ifs with h1 h2 h3 <;> simp_all

lemma modalPlace_title (r : ModalRegions) (c : DNode) :
    (modalPlace r c).title = if goesTitle c then [c] else r.title := by
  rcases c with ⟨n, el, slot⟩
  cases el <;> rcases slot with _ | s <;>
    simp [modalPlace, goesTitle]
  split_ifs with h1 h2 h3 <;> simp_all

lemma modalPlace_titleDefault (r : ModalRegions) (c : DNode) :
    (modalPlace r c).titleDefault = if goesTitle c then false else r.titleDefault := by
  rcases c with ⟨n, el, slot⟩
  cases el <;> rcases slot with _ | s <;>
    simp [modalPlace, goesTitle]
  split_ifs with h1 h2 h3 <;> simp_all

lemma modal_foldl_body (cs : List DNode) :
    ∀ r : ModalRegions, (cs.foldl modalPlace r).body = r.body ++ cs.filter goesModalBody := by
  induction cs with
  | nil => intro r; simp
  | cons c cs ih =>
    intro r
    rw [List.foldl_cons, ih, List.filter_cons, modalPlace_body]
    cases h : goesModalBody c <;> simp [h]

lemma modal_foldl_footer (cs : List DNode) :
    ∀ r : ModalRegions, (cs.foldl modalPlace r).footer = r.footer ++ cs.filter goesFooter := by
  induction cs with
  | nil => intro r; simp
  | cons c cs ih =>
    intro r
    rw [List.foldl_cons, ih, List.filter_cons, modalPlace_footer]
    cases h : goesFooter c <;> simp [h]

lemma modal_foldl_title_nil (cs : List DNode) :
    ∀ r : ModalRegions, cs.filter goesTitle = [] → (cs.foldl modalPlace r).title = r.title := by
  induction cs with
  | nil => intro r _; rfl
  | cons c cs ih =>
    intro r h
    rw [List.filter_cons] at h
    cases hc : goesTitle c
    · rw [List.foldl_cons, ih _ (by simpa [hc] using h), modalPlace_title, hc]
      simp
    · simp [hc] at h

lemma modal_foldl_title_one (cs : List DNode) :
    ∀ r : ModalRegions, (cs.filter goesTitle).length ≤ 1 → r.title = [] →
      (cs.foldl modalPlace r).title = cs.filter goesTitle := by
  induction cs with
  | nil => intro r _ hr; simpa using hr
  | cons c cs ih =>
    intro r hlen hr
    rw [List.filter_cons]
    cases hc : goesTitle c
    · rw [List.foldl_cons, ih _ (by simpa [List.filter_cons, hc] using hlen)
        (by rw [modalPlace_title, hc]; simpa using hr)]
      simp
    · have hall : ∀ a ∈ cs, ¬(goesTitle a = true) := by
        rw [List.filter_cons, hc] at hlen
        simpa using hlen
      have hnil : cs.filter goesTitle = [] := List.filter_eq_nil_iff.mpr hall
      rw [List.foldl_cons, modal_foldl_title_nil cs _ hnil, modalPlace_title, hc, hnil]
      simp

lemma modal_foldl_titleDefault_mono (cs : List DNode) :
    ∀ r : ModalRegions, r.titleDefault = false → (cs.foldl modalPlace r).titleDefault = false := by
  induction cs with
  | nil => intro r h; exact h
  | cons c cs ih =>
    intro r h
    rw [List.foldl_cons]
    refine ih _ ?_
    rw [modalPlace_titleDefault]
    cases hc : goesTitle c <;> simp [h]

lemma modal_foldl_titleDefault_cleared (cs : List DNode) :
    ∀ r : ModalRegions, cs.filter goesTitle ≠ [] → (cs.foldl modalPlace r).titleDefault = false := by
  induction cs with
  | nil => intro r h; simp at h
  | cons c cs ih =>
    intro r h
    rw [List.foldl_cons]
    cases hc : goesTitle c
    · refine ih _ ?_
      rw [List.filter_cons, hc] at h
      simpa using h
    · refine modal_foldl_titleDefault_mono cs _ ?_
      rw [modalPlace_titleDefault, hc]
      simp

lemma not_goesTitle_and_goesFooter (c : DNode) :
    ¬(goesTitle c = true ∧ goesFooter c = true) := by
  rintro ⟨h1, h2⟩
  simp [goesTitle, goesFooter] at h1 h2
  rw [h1.2] at h2
  simpa using h2.2

lemma modal_filter_partition (cs : List DNode) :
    (cs.filter goesModalBody).length + (cs.filter goesFooter).length +
      (cs.filter goesTitle).length = cs.length := by
  induction cs with
  | nil => rfl
  | cons c cs ih =>
    by_cases hT : goesTitle c = true
    · have hF : goesFooter c = false := by
        cases hFc : goesFooter c
        · rfl
        · exact absurd ⟨hT, hFc⟩ (not_goesTitle_and_goesFooter c)
      have hB : goesModalBody c = false := by simp [goesModalBody, hT]
      simp [List.filter_cons, hT, hF, hB]
      omega
    · have hT2 : goesTitle c = false := by simpa using hT
      by_cases hF : goesFooter c = true
      · have hB : goesModalBody c = false := by simp [goesModalBody, hF]
        simp [List.filter_cons, hT2, hF, hB]
        omega
      · have hF2 : goesFooter c = false := by simpa using hF
        have hB : goesModalBody c = true := by simp [goesModalBody, hT2, hF2]
        simp [List.filter_cons, hT2, hF2, hB]
        omega

lemma toastPlace_icon (r : ToastRegions) (c : DNode) :
    (toastPlace r c).icon = r.icon ++ if goesIcon c then [c] else [] := by
  rcases c with ⟨n, el, slot⟩
  cases el <;> rcases slot with _ | s <;>
    simp [toastPlace, goesIcon]
  split_ifs with h1 h2 <;> simp_all

lemma toastPlace_header (r : ToastRegions) (c : DNode) :
    (toastPlace r c).header = r.header ++ if goesHeader c then [c] else [] := by
  rcases c with ⟨n, el, slot⟩
  cases el <;> rcases slot with _ | s <;>
    simp [toastPlace, goesHeader]
  split_ifs with h1 h2 <;> simp_all

lemma toastPlace_body (r : ToastRegions) (c : DNode) :
    (toastPlace r c).body = r.body ++ if goesToastBody c then [c] else [] := by
  rcases c with ⟨n, el, slot⟩
  cases el <;> rcases slot with _ | s <;>
    simp [toastPlace, goesToastBody, goesIcon, goesHeader]
  split_ifs with h1 h2 <;> simp_all

lemma toast_foldl_icon (cs : List DNode) :
    ∀ r : ToastRegions, (cs.foldl toastPlace r).icon = r.icon ++ cs.filter goesIcon := by
  induction cs with
  | nil => intro r; simp
  | cons c cs ih =>
    intro r
    rw [List.foldl_cons, ih, List.filter_cons, toastPlace_icon]
    cases h : goesIcon c <;> simp [h]

lemma toast_foldl_header (cs : List DNode) :
    ∀ r : ToastRegions, (cs.foldl toastPlace r).header = r.header ++ cs.filter goesHeader := by
  induction cs with
  | nil => intro r; simp
  | cons c cs ih =>
    intro r
    rw [List.foldl_cons, ih, List.filter_cons, toastPlace_header]
    cases h : goesHeader c <;> simp [h]

lemma toast_foldl_body (cs : List DNode) :
    ∀ r : ToastRegions, (cs.foldl toastPlace r).body = r.body ++ cs.filter goesToastBody := by
  induction cs with
  | nil => intro r; simp
  | cons c cs ih =>
    intro r
    rw [List.foldl_cons, ih, List.filter_cons, toastPlace_body]
    cases h : goesToastBody c <;> simp [h]

lemma not_goesIcon_and_goesHeader (c : DNode) :
    ¬(goesIcon c = true ∧ goesHeader c = true) := by
  rintro ⟨h1, h2⟩
  simp [goesIcon, goesHeader] at h1 h2
  rw [h1.2] at h2
  simpa using h2.2

lemma toast_filter_partition (cs : List DNode) :
    (cs.filter goesIcon).length + (cs.filter goesHeader).length +
      (cs.filter goesToastBody).length = cs.length := by
  induction cs with
  | nil => rfl
  | cons c cs ih =>
    by_cases hI : goesIcon c = true
    · have hH : goesHeader c = false := by
        cases hHc : goesHeader c
        · rfl
        · exact absurd ⟨hI, hHc⟩ (not_goesIcon_and_goesHeader c)
      have hB : goesToastBody c = false := by simp [goesToastBody, hI]
      simp [List.filter_cons, hI, hH, hB]
      omega
    · have hI2 : goesIcon c = false := by simpa using hI
      by_cases hH : goesHeader c = true
      · have hB : goesToastBody c = false := by simp [goesToastBody, hH]
        simp [List.filter_cons, hI2, hH, hB]
        omega
      · have hH2 : goesHeader c = false := by simpa using hH
        have hB : goesToastBody c = true := by simp [goesToastBody, hI2, hH2]
        simp [List.filter_cons, hI2, hH2, hB]
        omega

lemma alertPlace_heading (r : AlertRegions) (c : DNode) :
    (alertPlace r c).heading = if goesHeading c then [c] else r.heading := by
  rcases c with ⟨n, el, slot⟩
  cases el <;> rcases slot with _ | s <;>
    simp [alertPlace, goesHeading]
  split_ifs with h1 <;> simp_all

lemma alertPlace_headingDefault (r : AlertRegions) (c : DNode) :
    (alertPlace r c).headingDefault = if goesHeading c then false else r.headingDefault := by
  rcases c with ⟨n, el, slot⟩
  cases el <;> rcases slot with _ | s <;>
    simp [alertPlace, goesHeading]
  split_ifs with h1 <;> simp_all

lemma alert_foldl_heading_nil (cs : List DNode) :
    ∀ r : AlertRegions, cs.filter goesHeading = [] → (cs.foldl alertPlace r).heading = r.heading := by
  induction cs with
  | nil => intro r _; rfl
  | cons c cs ih =>
    intro r h
    rw [List.filter_cons] at h
    cases hc : goesHeading c
    · rw [List.foldl_cons, ih _ (by simpa [hc] using h), alertPlace_heading, hc]
      simp
    · simp [hc] at h

lemma alert_foldl_heading_one (cs : List DNode) :
    ∀ r : AlertRegions, (cs.filter goesHeading).length ≤ 1 → r.heading = [] →
      (cs.foldl alertPlace r).heading = cs.filter goesHeading := by
  induction cs with
  | nil => intro r _ hr; simpa using hr
  | cons c cs ih =>
    intro r hlen hr
    rw [List.filter_cons]
    cases hc : goesHeading c
    · rw [List.foldl_cons, ih _ (by simpa [List.filter_cons, hc] using hlen)
        (by rw [alertPlace_heading, hc]; simpa using hr)]
      simp
    · have hall : ∀ a ∈ cs, ¬(goesHeading a = true) := by
        rw [List.filter_cons, hc] at hlen
        simpa using hlen
      have hnil : cs.filter goesHeading = [] := List.filter_eq_nil_iff.mpr hall
      rw [List.foldl_cons, alert_foldl_heading_nil cs _ hnil, alertPlace_heading, hc, hnil]
      simp

lemma alert_foldl_headingDefault_mono (cs : List DNode) :
    ∀ r : AlertRegions, r.headingDefault = false →
      (cs.foldl alertPlace r).headingDefault = false := by
  induction cs with
  | nil => intro r h; exact h
  | cons c cs ih =>
    intro r h
    rw [List.foldl_cons]
    refine ih _ ?_
    rw [alertPlace_headingDefault]
    cases hc : goesHeading c <;> simp [h]

lemma alert_foldl_headingDefault_cleared (cs : List DNode) :
    ∀ r : AlertRegions, cs.filter goesHeading ≠ [] →
      (cs.foldl alertPlace r).headingDefault = false := by
  induction cs with
  | nil => intro r h; simp at h
  | cons c cs ih =>
    intro r h
    rw [List.foldl_cons]
    cases hc : goesHeading c
    · refine ih _ ?_
      rw [List.filter_cons, hc] at h
      simpa using h
    · refine alert_foldl_headingDefault_mono cs _ ?_
      rw [alertPlace_headingDefault, hc]
      simp

/-! ## Lifecycle invariants -/

/-- The internal DOM is built exactly when `_initialized` is set: `_render` is
the only place that builds, and it sets the flag when (and only when) it
builds. -/
def buildInv (s : MState) : Prop :=
  s.buildCount = if s.initialized then 1 else 0

lemma buildInv_initModal : buildInv initModal := by
  simp [buildInv, initModal]

lemma buildInv_renderStep (env : Bool) (s : MState) (h : buildInv s) :
    buildInv (renderStep env s) := by
  unfold renderStep
  cases hi : s.initialized
  · simp [buildInv, hi] at h
    simp [buildInv, hi, h]
  · simpa [hi] using h

lemma renderStep_initialized (env : Bool) (s : MState) :
    (renderStep env s).initialized = true := by
  unfold renderStep
  cases hi : s.initialized <;> simp [hi]

lemma buildInv_eventStep (env : Bool) (s : MState) (e : MEvent) (h : buildInv s) :
    buildInv (eventStep env s e) := by
  cases e with
  | attach =>
    cases hi : s.initialized
    · have he : eventStep env s .attach = { s with pending := s.pending + 1 } := by
        simp [eventStep, hi]
      rw [he]
      simpa [buildInv] using h
    · have he : eventStep env s .attach = s := by simp [eventStep, hi]
      rw [he]; exact h
  | detach =>
    cases hm : s.modal
    · have he : eventStep env s .detach = s := by simp [eventStep, hm]
      rw [he]; exact h
    · have he : eventStep env s .detach = { s with modal := false } := by
        simp [eventStep, hm]
      rw [he]
      simpa [buildInv] using h
  | timerFire =>
    by_cases hp : s.pending = 0
    · have he : eventStep env s .timerFire = s := by simp [eventStep, hp]
      rw [he]; exact h
    · have he : eventStep env s .timerFire =
          renderStep env { s with pending := s.pending - 1 } := by
        simp [eventStep, hp]
      rw [he]
      exact buildInv_renderStep env _ (by simpa [buildInv] using h)

lemma buildInv_runEvents (env : Bool) (evs : List MEvent) :
    ∀ s : MState, buildInv s → buildInv (runEvents env evs s) := by
  induction evs with
  | nil => intro s h; exact h
  | cons e evs ih =>
    intro s h
    exact ih _ (buildInv_eventStep env s e h)

lemma buildInv_fireTimers (env : Bool) :
    ∀ (k : Nat) (s : MState), buildInv s → buildInv (fireTimers env k s) := by
  intro k
  induction k with
  | zero => intro s h; exact h
  | succ k ih =>
    intro s h
    exact ih _ (buildInv_eventStep env s .timerFire h)

lemma buildInv_flushTimers (env : Bool) (s : MState) (h : buildInv s) :
    buildInv (flushTimers env s) :=
  buildInv_fireTimers env s.pending s h

/-- Once initialized, or with a deferred render still pending, the instance is
guaranteed to end up materialized. -/
def readyInv (s : MState) : Prop :=
  s.initialized = true ∨ 1 ≤ s.pending

lemma readyInv_eventStep (env : Bool) (s : MState) (e : MEvent) (h : readyInv s) :
    readyInv (eventStep env s e) := by
  cases e with
  | attach =>
    cases hi : s.initialized
    · have he : eventStep env s .attach = { s with pending := s.pending + 1 } := by
        simp [eventStep, hi]
      rw [he]
      right
      simp
    · have he : eventStep env s .attach = s := by simp [eventStep, hi]
      rw [he]; exact h
  | detach =>
    cases hm : s.modal
    · have he : eventStep env s .detach = s := by simp [eventStep, hm]
      rw [he]; exact h
    · have he : eventStep env s .detach = { s with modal := false } := by
        simp [eventStep, hm]
      rw [he]
      rcases h with h | h
      · left; simpa using h
      · right; simpa using h
  | timerFire =>
    by_cases hp : s.pending = 0
    · have he : eventStep env s .timerFire = s := by simp [eventStep, hp]
      rw [he]; exact h
    · have he : eventStep env s .timerFire =
          renderStep env { s with pending := s.pending - 1 } := by
        simp [eventStep, hp]
      rw [he]
      left
      exact renderStep_initialized env _

lemma readyInv_attach (env : Bool) (s : MState) :
    readyInv (eventStep env s .attach) := by
  cases hi : s.initialized
  · have he : eventStep env s .attach = { s with pending := s.pending + 1 } := by
      simp [eventStep, hi]
    rw [he]
    right
    simp
  · left
    have he : eventStep env s .attach = s := by simp [eventStep, hi]
    rw [he]
    exact hi

lemma readyInv_after_attach (env : Bool) (evs : List MEvent) :
    ∀ s : MState, MEvent.attach ∈ evs → readyInv (runEvents env evs s) := by
  induction evs with
  | nil => intro s h; simp at h
  | cons e evs ih =>
    intro s h
    rcases List.mem_cons.mp h with he | he
    · by_cases hm : MEvent.attach ∈ evs
      · exact ih _ hm
      · subst he
        have hkeep : ∀ (l : List MEvent) (t : MState), readyInv t →
            readyInv (runEvents env l t) := by
          intro l
          induction l with
          | nil => intro t ht; exact ht
          | cons x xs ihx =>
            intro t ht
            exact ihx _ (readyInv_eventStep env t x ht)
        exact hkeep evs _ (readyInv_attach env s)
    · exact ih _ he

lemma fireTimers_initialized (env : Bool) :
    ∀ (k : Nat) (s : MState), s.pending = k → readyInv s →
      (fireTimers env k s).initialized = true := by
  intro k
  induction k with
  | zero =>
    intro s hp h
    rcases h with h | h
    · exact h
    · omega
  | succ k ih =>
    intro s hp h
    have hne : ¬s.pending = 0 := by omega
    have hstep : eventStep env s .timerFire =
        renderStep env { s with pending := s.pending - 1 } := by
      simp [eventStep, hne]
    show (fireTimers env k (eventStep env s .timerFire)).initialized = true
    refine ih _ ?_ ?_
    · rw [hstep]
      unfold renderStep
      cases hi : ({ s with pending := s.pending - 1 } : MState).initialized <;>
        simp [hi, hp]
    · left
      rw [hstep]
      exact renderStep_initialized env _

lemma flushTimers_initialized (env : Bool) (s : MState) (h : readyInv s) :
    (flushTimers env s).initialized = true :=
  fireTimers_initialized env s.pending s rfl h

lemma eventStep_detach_initialized (env : Bool) (s : MState) :
    (eventStep env s .detach).initialized = s.initialized := by
  cases hm : s.modal
  · simp [eventStep, hm]
  · simp [eventStep, hm]

lemma runCalls_cons_fst (env : Bool) (c : MCall) (cs : List MCall) (s : MState) :
    (runCalls env (c :: cs) s).1 = (runCalls env cs (mcallStep env s c).1).1 := rfl

lemma runCalls_cons_snd (env : Bool) (c : MCall) (cs : List MCall) (s : MState) :
    (runCalls env (c :: cs) s).2 =
      (mcallStep env s c).2 ++ (runCalls env cs (mcallStep env s c).1).2 := rfl

lemma ensureModal_initialized (env : Bool) (s : MState) :
    (ensureModal env s).initialized = true := by
  unfold ensureModal
  cases hi : s.initialized
  · simp only [hi, Bool.not_false, if_true]
    by_cases hc : (!(renderStep env s).modal && env) = true
    · simp [hc, renderStep_initialized]
    · simp only [hc, if_neg]
      simpa using renderStep_initialized env s
  · simp only [hi, Bool.not_true, if_false]
    by_cases hc : (!s.modal && env) = true
    · simp [hc, hi]
    · simpa [hc] using hi

lemma ensureModal_modal_noLib (s : MState) (h : s.modal = false) :
    (ensureModal false s).modal = false := by
  unfold ensureModal
  simp only [Bool.and_false, Bool.false_eq_true, if_false]
  cases hi : s.initialized
  · simp only [hi, Bool.not_false, if_true]
    unfold renderStep
    simp [hi]
  · simpa [hi] using h

/-- With the Bootstrap global absent, no call ever creates a handle or reaches
a plugin operation. -/
lemma mcall_noLib_step (s : MState) (c : MCall) (h : s.modal = false) :
    (mcallStep false s c).1.modal = false ∧ (mcallStep false s c).2 = [] := by
  cases c with
  | attach =>
    constructor
    · cases hi : s.initialized <;> simp [mcallStep, eventStep, hi, h]
    · rfl
  | detach =>
    constructor
    · simp [mcallStep, eventStep, h]
    · simp [mcallStep, h]
  | timerFire =>
    constructor
    · by_cases hp : s.pending = 0
      · simpa [mcallStep, eventStep, hp] using h
      · simp [mcallStep, eventStep, hp]
        unfold renderStep
        cases hi : ({ s with pending := s.pending - 1 } : MState).initialized <;> simp [hi, h]
    · rfl
  | render =>
    constructor
    · unfold mcallStep renderStep
      cases hi : s.initialized <;> simp [hi, h]
    · rfl
  | «show» =>
    have hm := ensureModal_modal_noLib s h
    constructor
    · simpa [mcallStep, modalShow] using hm
    · simp [mcallStep, modalShow, hm]
  | hide =>
    constructor
    · simpa [mcallStep, modalHide] using h
    · simp [mcallStep, modalHide, h]
  | toggle =>
    have hm := ensureModal_modal_noLib s h
    constructor
    · simpa [mcallStep, modalToggle] using hm
    · simp [mcallStep, modalToggle, hm]
  | dispose =>
    constructor
    · simp [mcallStep, modalDispose, h]
    · simp [mcallStep, modalDispose, h]

lemma runCalls_noLib (cs : List MCall) :
    ∀ s : MState, s.modal = false →
      (runCalls false cs s).1.modal = false ∧ (runCalls false cs s).2 = [] := by
  induction cs with
  | nil => intro s h; exact ⟨h, rfl⟩
  | cons c cs ih =>
    intro s h
    have hc := mcall_noLib_step s c h
    have hr := ih _ hc.1
    exact ⟨by rw [runCalls_cons_fst]; exact hr.1,
      by rw [runCalls_cons_snd, hc.2, hr.2]; rfl⟩

lemma mcall_init_mono (env : Bool) (s : MState) (c : MCall)
    (h : s.initialized = true) : (mcallStep env s c).1.initialized = true := by
  cases c with
  | attach => simp [mcallStep, eventStep, h]
  | detach => cases hm : s.modal <;> simp [mcallStep, eventStep, hm, h]
  | timerFire =>
    by_cases hp : s.pending = 0
    · simpa [mcallStep, eventStep, hp] using h
    · simp [mcallStep, eventStep, hp]
      unfold renderStep
      simp [h]
  | render => unfold mcallStep renderStep; simp [h]
  | «show» => simp [mcallStep, modalShow, ensureModal_initialized]
  | hide => simpa [mcallStep, modalHide] using h
  | toggle => simp [mcallStep, modalToggle, ensureModal_initialized]
  | dispose => cases hm : s.modal <;> simp [mcallStep, modalDispose, hm, h]

lemma mcall_render_initialized (env : Bool) (s : MState) :
    (mcallStep env s .render).1.initialized = true := by
  unfold mcallStep
  exact renderStep_initialized env s

lemma runCalls_init_mono (env : Bool) (cs : List MCall) :
    ∀ s : MState, s.initialized = true → (runCalls env cs s).1.initialized = true := by
  induction cs with
  | nil => intro s h; exact h
  | cons c cs ih =>
    intro s h
    rw [runCalls_cons_fst]
    exact ih _ (mcall_init_mono env s c h)

lemma runCalls_init_after_render (env : Bool) (cs : List MCall) :
    ∀ s : MState, MCall.render ∈ cs → (runCalls env cs s).1.initialized = true := by
  induction cs with
  | nil => intro s h; simp at h
  | cons c cs ih =>
    intro s h
    rcases List.mem_cons.mp h with he | he
    · by_cases hm : MCall.render ∈ cs
      · rw [runCalls_cons_fst]; exact ih _ hm
      · subst he
        rw [runCalls_cons_fst]
        exact runCalls_init_mono env cs _ (mcall_render_initialized env s)
    · rw [runCalls_cons_fst]; exact ih _ he

lemma buildInv_setModal (s : MState) (b : Bool) (h : buildInv s) :
    buildInv { s with modal := b } := by
  simpa [buildInv] using h

lemma buildInv_ensureModal (env : Bool) (s : MState) (h : buildInv s) :
    buildInv (ensureModal env s) := by
  simp only [ensureModal]
  split_ifs
  all_goals
    first
      | exact h
      | exact buildInv_renderStep env s h

lemma buildInv_mcallStep (env : Bool) (s : MState) (c : MCall) (h : buildInv s) :
    buildInv (mcallStep env s c).1 := by
  cases c with
  | attach => exact buildInv_eventStep env s .attach h
  | detach => exact buildInv_eventStep env s .detach h
  | timerFire => exact buildInv_eventStep env s .timerFire h
  | render => exact buildInv_renderStep env s h
  | «show» => exact buildInv_ensureModal env s h
  | hide => exact h
  | toggle => exact buildInv_ensureModal env s h
  | dispose =>
    cases hm : s.modal
    · simpa [mcallStep, modalDispose, hm] using h
    · simp only [mcallStep, modalDispose, hm, if_true]
      simpa [buildInv] using h

lemma buildInv_runCalls (env : Bool) (cs : List MCall) :
    ∀ s : MState, buildInv s → buildInv (runCalls env cs s).1 := by
  induction cs with
  | nil => intro s h; exact h
  | cons c cs ih =>
    intro s h
    rw [runCalls_cons_fst]
    exact ih _ (buildInv_mcallStep env s c h)

/-! ## Resource injection and polling lemmas -/

lemma ensureResources_eq (hljs : Bool) (d : DocSt) :
    ensureResources hljs d =
      { styleTag := max d.styleTag 1, hljsCss := max d.hljsCss 1,
        iconsCss := max d.iconsCss 1,
        hljsScript := if hljs then d.hljsScript else max d.hljsScript 1 } := by
  rcases d with ⟨a, b, c, e⟩
  simp only [ensureResources]
  cases hljs <;> split_ifs <;> simp_all <;> omega

lemma ensureResources_idem (hljs : Bool) (d : DocSt) :
    ensureResources hljs (ensureResources hljs d) = ensureResources hljs d := by
  rw [ensureResources_eq hljs d, ensureResources_eq]
  cases hljs <;> simp

lemma ensureResources_iterate (hljs : Bool) (d : DocSt) (n : Nat) :
    (ensureResources hljs)^[n + 1] d = ensureResources hljs d := by
  induction n with
  | zero => simp
  | succ n ih =>
    rw [Function.iterate_succ_apply', ih, ensureResources_idem]

/-- During the retry loop, the callback has run at most once per elapsed
100 ms, and never more than 50 times. -/
def pollInv (s : PollSt) : Prop :=
  s.polls * 100 ≤ s.time ∧ s.polls ≤ 50

lemma pollInv_tick (hljsAt : Option Nat) (s : PollSt) (h : pollInv s) :
    pollInv (pollTick hljsAt s) := by
  simp only [pollTick]
  split_ifs <;> simp only [pollInv] at h ⊢ <;> constructor <;> omega

lemma pollInv_iterate (hljsAt : Option Nat) (n : Nat) :
    pollInv ((pollTick hljsAt)^[n] pollInit) := by
  induction n with
  | zero => simp [pollInv, pollInit]
  | succ n ih =>
    rw [Function.iterate_succ_apply']
    exact pollInv_tick hljsAt _ ih

/-! ## Claim theorems -/

/-- C1 (counterexample): the redistribution step of `BsModal._render` does not
preserve the count of captured nodes for every input.  With two element
children both marked `slot="title"`, the second child's
`titleContainer.innerHTML = ''` removes the first child from the title region,
so the regions together hold 1 node although 2 were captured: the first child
is silently dropped. -/
theorem modal_redistribution_drops_duplicate_title_child :
    (modalDistribute "" [⟨0, true, some "title"⟩, ⟨1, true, some "title"⟩]).body.length +
      (modalDistribute "" [⟨0, true, some "title"⟩, ⟨1, true, some "title"⟩]).footer.length +
      (modalDistribute "" [⟨0, true, some "title"⟩, ⟨1, true, some "title"⟩]).title.length = 1 ∧
    ([(⟨0, true, some "title"⟩ : DNode), ⟨1, true, some "title"⟩] : List DNode).length = 2 ∧
    (modalDistribute "" [⟨0, true, some "title"⟩, ⟨1, true, some "title"⟩]).title =
      [⟨1, true, some "title"⟩] := by
  decide

/-- C1 (amended): for `BsModal._render`, provided at most one captured child is
an element marked `slot="title"`, every region equals the in-order filter of
the captured children by its routing predicate — so the total count across
regions equals N, no node is duplicated or dropped, and intra-region order is
the original document order; for `BsToast._render` the same holds with no
proviso at all. -/
theorem redistribution_preserves_nodes (titleAttr : String) (cs ds : List DNode)
    (h : (cs.filter goesTitle).length ≤ 1) :
    (modalDistribute titleAttr cs).body = cs.filter goesModalBody ∧
    (modalDistribute titleAttr cs).footer = cs.filter goesFooter ∧
    (modalDistribute titleAttr cs).title = cs.filter goesTitle ∧
    (modalDistribute titleAttr cs).body.length + (modalDistribute titleAttr cs).footer.length +
      (modalDistribute titleAttr cs).title.length = cs.length ∧
    (toastDistribute ds).icon = ds.filter goesIcon ∧
    (toastDistribute ds).header = ds.filter goesHeader ∧
    (toastDistribute ds).body = ds.filter goesToastBody ∧
    (toastDistribute ds).icon.length + (toastDistribute ds).header.length +
      (toastDistribute ds).body.length = ds.length := by
  have hb : (modalDistribute titleAttr cs).body = cs.filter goesModalBody := by
    unfold modalDistribute
    rw [modal_foldl_body]
    simp [modalRegInit]
  have hf : (modalDistribute titleAttr cs).footer = cs.filter goesFooter := by
    unfold modalDistribute
    rw [modal_foldl_footer]
    simp [modalRegInit]
  have ht : (modalDistribute titleAttr cs).title = cs.filter goesTitle := by
    unfold modalDistribute
    exact modal_foldl_title_one cs _ h (by simp [modalRegInit])
  have ti : (toastDistribute ds).icon = ds.filter goesIcon := by
    unfold toastDistribute
    rw [toast_foldl_icon]
    simp
  have th : (toastDistribute ds).header = ds.filter goesHeader := by
    unfold toastDistribute
    rw [toast_foldl_header]
    simp
  have tb : (toastDistribute ds).body = ds.filter goesToastBody := by
    unfold toastDistribute
    rw [toast_foldl_body]
    simp
  refine ⟨hb, hf, ht, ?_, ti, th, tb, ?_⟩
  · rw [hb, hf, ht]
    exact modal_filter_partition cs
  · rw [ti, th, tb]
    exact toast_filter_partition ds

/-- C1 witness: the amended theorem applied to one unmarked modal child and one
icon-marked toast child. -/
theorem redistribution_preserves_nodes_witness :
    (([(⟨0, false, none⟩ : DNode)].filter goesTitle).length ≤ 1) ∧
    ((modalDistribute "" [⟨0, false, none⟩]).body =
        [(⟨0, false, none⟩ : DNode)].filter goesModalBody ∧
      (modalDistribute "" [⟨0, false, none⟩]).footer =
        [(⟨0, false, none⟩ : DNode)].filter goesFooter ∧
      (modalDistribute "" [⟨0, false, none⟩]).title =
        [(⟨0, false, none⟩ : DNode)].filter goesTitle ∧
      (modalDistribute "" [⟨0, false, none⟩]).body.length +
        (modalDistribute "" [⟨0, false, none⟩]).footer.length +
        (modalDistribute "" [⟨0, false, none⟩]).title.length =
        [(⟨0, false, none⟩ : DNode)].length ∧
      (toastDistribute [⟨1, true, some "icon"⟩]).icon =
        [(⟨1, true, some "icon"⟩ : DNode)].filter goesIcon ∧
      (toastDistribute [⟨1, true, some "icon"⟩]).header =
        [(⟨1, true, some "icon"⟩ : DNode)].filter goesHeader ∧
      (toastDistribute [⟨1, true, some "icon"⟩]).body =
        [(⟨1, true, some "icon"⟩ : DNode)].filter goesToastBody ∧
      (toastDistribute [⟨1, true, some "icon"⟩]).icon.length +
        (toastDistribute [⟨1, true, some "icon"⟩]).header.length +
        (toastDistribute [⟨1, true, some "icon"⟩]).body.length =
        [(⟨1, true, some "icon"⟩ : DNode)].length) :=
  ⟨by decide, redistribution_preserves_nodes "" [⟨0, false, none⟩] [⟨1, true, some "icon"⟩]
    (by decide)⟩

/-- C2: invoking `connectedCallback` any number of times on one `BsModal`
instance, with arbitrary interleaving of `disconnectedCallback` calls and
deferred-timeout firings, yields exactly one materialization: the build count
never exceeds one, once every pending deferred `_render` callback has fired
the structure has been built exactly once and the initialized flag is set, and
`disconnectedCallback` never resets the initialized flag. -/
theorem attach_idempotent_single_materialization (env : Bool) (evs : List MEvent)
    (s : MState) (h : MEvent.attach ∈ evs) :
    (runEvents env evs initModal).buildCount ≤ 1 ∧
    (flushTimers env (runEvents env evs initModal)).buildCount = 1 ∧
    (flushTimers env (runEvents env evs initModal)).initialized = true ∧
    (eventStep env s .detach).initialized = s.initialized := by
  have hb : buildInv (runEvents env evs initModal) :=
    buildInv_runEvents env evs _ buildInv_initModal
  have hr : readyInv (runEvents env evs initModal) :=
    readyInv_after_attach env evs _ h
  have hinit : (flushTimers env (runEvents env evs initModal)).initialized = true :=
    flushTimers_initialized env _ hr
  have hb2 : buildInv (flushTimers env (runEvents env evs initModal)) :=
    buildInv_flushTimers env _ hb
  refine ⟨?_, ?_, hinit, eventStep_detach_initialized env s⟩
  · unfold buildInv at hb
    rw [hb]
    cases (runEvents env evs initModal).initialized <;> simp
  · unfold buildInv at hb2
    rw [hb2, hinit]
    rfl

/-- C2 witness: one attach followed by its timeout firing, on a fresh
instance with the Bootstrap global present. -/
theorem attach_idempotent_single_materialization_witness :
    MEvent.attach ∈ [MEvent.attach] ∧
    ((runEvents true [MEvent.attach] initModal).buildCount ≤ 1 ∧
      (flushTimers true (runEvents true [MEvent.attach] initModal)).buildCount = 1 ∧
      (flushTimers true (runEvents true [MEvent.attach] initModal)).initialized = true ∧
      (eventStep true initModal .detach).initialized = initModal.initialized) :=
  ⟨by decide, attach_idempotent_single_materialization true [MEvent.attach] initModal (by decide)⟩

/-- C3 (counterexample): `BsModal.hide` invoked on a not-yet-materialized
instance returns without performing its operation and without materializing,
whatever the ambient library's availability — `hide` never consults it and
never calls `_ensureModal` — and `BsTooltip.show` behaves the same way; this
refutes the claim that every handle-dependent method (show, hide, toggle)
materializes synchronously and then performs its operation. -/
theorem hide_noop_before_materialization :
    (modalHide initModal).2 = [] ∧
    (modalHide initModal).1.initialized = false ∧
    (tooltipShow { initialized := false, tooltip := false }).2 = [] ∧
    (tooltipShow { initialized := false, tooltip := false }).1.initialized = false := by
  decide

/-- C3 (amended): with the Bootstrap global present, `BsModal.show` and
`BsModal.toggle` invoked on a not-yet-materialized instance materialize
synchronously (via `_ensureModal`), create the handle, and perform their
operation; but `BsModal.hide` and the `BsTooltip` methods `show`, `hide`,
`toggle` merely check the stored handle and return without effect. -/
theorem imperative_methods_materialization (s : MState) (t : TState)
    (hs : s.initialized = false) (hm : s.modal = false) (ht : t.tooltip = false) :
    (modalShow true s).1.initialized = true ∧ (modalShow true s).1.modal = true ∧
    (modalShow true s).2 = [PluginOp.show] ∧
    (modalToggle true s).1.initialized = true ∧ (modalToggle true s).1.modal = true ∧
    (modalToggle true s).2 = [PluginOp.toggle] ∧
    modalHide s = (s, []) ∧
    tooltipShow t = (t, []) ∧ tooltipHide t = (t, []) ∧ tooltipToggle t = (t, []) := by
  have h1 : ensureModal true s =
      { initialized := true, buildCount := s.buildCount + 1, modal := true,
        pending := s.pending } := by
    unfold ensureModal renderStep
    simp [hs]
  simp [modalShow, modalToggle, modalHide, tooltipShow, tooltipHide, tooltipToggle,
    h1, hm, ht]

/-- C3 witness: the amended theorem at a fresh modal and a fresh tooltip. -/
theorem imperative_methods_materialization_witness :
    initModal.initialized = false ∧ initModal.modal = false ∧
    (({ initialized := false, tooltip := false } : TState)).tooltip = false ∧
    ((modalShow true initModal).1.initialized = true ∧
      (modalShow true initModal).1.modal = true ∧
      (modalShow true initModal).2 = [PluginOp.show] ∧
      (modalToggle true initModal).1.initialized = true ∧
      (modalToggle true initModal).1.modal = true ∧
      (modalToggle true initModal).2 = [PluginOp.toggle] ∧
      modalHide initModal = (initModal, []) ∧
      tooltipShow { initialized := false, tooltip := false } =
        ({ initialized := false, tooltip := false }, []) ∧
      tooltipHide { initialized := false, tooltip := false } =
        ({ initialized := false, tooltip := false }, []) ∧
      tooltipToggle { initialized := false, tooltip := false } =
        ({ initialized := false, tooltip := false }, [])) :=
  ⟨rfl, rfl, rfl,
    imperative_methods_materialization initModal { initialized := false, tooltip := false }
      rfl rfl rfl⟩

/-- C4: a modal constructed with exactly three children — an element marked
`slot="footer"`, an element marked with the unrecognized name
`slot="mystery"`, and an unmarked text node — ends up after redistribution
with the footer region holding exactly the first child, the body region
holding the other two in their original relative order, and the footer
container kept (it is non-empty, so the empty-footer removal does not fire). -/
theorem modal_three_child_scenario :
    (modalDistribute ""
      [⟨0, true, some "footer"⟩, ⟨1, true, some "mystery"⟩, ⟨2, false, none⟩]).footer =
      [⟨0, true, some "footer"⟩] ∧
    (modalDistribute ""
      [⟨0, true, some "footer"⟩, ⟨1, true, some "mystery"⟩, ⟨2, false, none⟩]).body =
      [⟨1, true, some "mystery"⟩, ⟨2, false, none⟩] ∧
    modalFooterKept (modalDistribute ""
      [⟨0, true, some "footer"⟩, ⟨1, true, some "mystery"⟩, ⟨2, false, none⟩]) = true := by
  decide

/-- C5: when among the captured children exactly one is marked for the
attribute-backed region — `slot="title"` for the modal's title region
(defaulted from the `title` attribute), `slot="heading"` for the alert's
heading region (defaulted from the `heading` attribute) — the region ends up
containing exactly that marked child and none of the attribute-derived
default content: the container is cleared before the child is inserted, a
full replacement rather than an append. -/
theorem attribute_default_fully_replaced (titleAttr : String) (headingAttr : Option String)
    (cs ds : List DNode) (c d : DNode)
    (hc : cs.filter goesTitle = [c]) (hd : ds.filter goesHeading = [d]) :
    (modalDistribute titleAttr cs).title = [c] ∧
    (modalDistribute titleAttr cs).titleDefault = false ∧
    (alertDistribute headingAttr ds).heading = [d] ∧
    (alertDistribute headingAttr ds).headingDefault = false := by
  have h1 : (modalDistribute titleAttr cs).title = cs.filter goesTitle :=
    modal_foldl_title_one cs _ (by rw [hc]; simp) (by simp [modalRegInit])
  have h2 : (modalDistribute titleAttr cs).titleDefault = false :=
    modal_foldl_titleDefault_cleared cs _ (by rw [hc]; simp)
  have h3 : (alertDistribute headingAttr ds).heading = ds.filter goesHeading :=
    alert_foldl_heading_one ds _ (by rw [hd]; simp) (by simp [alertRegInit])
  have h4 : (alertDistribute headingAttr ds).headingDefault = false :=
    alert_foldl_headingDefault_cleared ds _ (by rw [hd]; simp)
  exact ⟨by rw [h1, hc], h2, by rw [h3, hd], h4⟩

/-- C5 witness: a modal with `title="T"` and one title-marked child, an alert
with `heading="H"` and one heading-marked child. -/
theorem attribute_default_fully_replaced_witness :
    ([(⟨0, true, some "title"⟩ : DNode)].filter goesTitle = [⟨0, true, some "title"⟩]) ∧
    ([(⟨1, true, some "heading"⟩ : DNode)].filter goesHeading = [⟨1, true, some "heading"⟩]) ∧
    ((modalDistribute "T" [⟨0, true, some "title"⟩]).title = [⟨0, true, some "title"⟩] ∧
      (modalDistribute "T" [⟨0, true, some "title"⟩]).titleDefault = false ∧
      (alertDistribute (some "H") [⟨1, true, some "heading"⟩]).heading =
        [⟨1, true, some "heading"⟩] ∧
      (alertDistribute (some "H") [⟨1, true, some "heading"⟩]).headingDefault = false) :=
  ⟨by decide, by decide,
    attribute_default_fully_replaced "T" (some "H") [⟨0, true, some "title"⟩]
      [⟨1, true, some "heading"⟩] ⟨0, true, some "title"⟩ ⟨1, true, some "heading"⟩
      (by decide) (by decide)⟩

/-- C6: with the Bootstrap global absent, any sequence of lifecycle events and
method calls on a `BsModal` instance — as long as it includes the deferred
`_render` — builds the internal markup exactly once and sets the initialized
flag, yet never constructs a plugin handle and never reaches a single plugin
operation: `show`, `hide` and `toggle` all return silently. -/
theorem missing_library_silent_downgrade (cs : List MCall) (h : MCall.render ∈ cs) :
    (runCalls false cs initModal).1.modal = false ∧
    (runCalls false cs initModal).2 = [] ∧
    (runCalls false cs initModal).1.initialized = true ∧
    (runCalls false cs initModal).1.buildCount = 1 := by
  have hn := runCalls_noLib cs initModal rfl
  have hi := runCalls_init_after_render false cs initModal h
  have hb := buildInv_runCalls false cs initModal buildInv_initModal
  refine ⟨hn.1, hn.2, hi, ?_⟩
  unfold buildInv at hb
  rw [hb, hi]
  rfl

/-- C6 witness: render then show with the library absent. -/
theorem missing_library_silent_downgrade_witness :
    MCall.render ∈ [MCall.render, MCall.show] ∧
    ((runCalls false [MCall.render, MCall.show] initModal).1.modal = false ∧
      (runCalls false [MCall.render, MCall.show] initModal).2 = [] ∧
      (runCalls false [MCall.render, MCall.show] initModal).1.initialized = true ∧
      (runCalls false [MCall.render, MCall.show] initModal).1.buildCount = 1) :=
  ⟨by decide, missing_library_silent_downgrade [MCall.render, MCall.show] (by decide)⟩

/-- C7: `dispose` is idempotent and always leaves the stored handle null: for
both `BsModal` and `BsTooltip`, after a first `dispose` the stored reference
is null, and a second `dispose` is a complete no-op (same state, no plugin
call) that leaves it null again — in particular `dispose` never throws, being
guarded by the handle check. -/
theorem dispose_twice_safe (s : MState) (t : TState) :
    (modalDispose s).1.modal = false ∧
    modalDispose (modalDispose s).1 = ((modalDispose s).1, []) ∧
    (modalDispose (modalDispose s).1).1.modal = false ∧
    (tooltipDispose t).1.tooltip = false ∧
    tooltipDispose (tooltipDispose t).1 = ((tooltipDispose t).1, []) ∧
    (tooltipDispose (tooltipDispose t).1).1.tooltip = false := by
  cases hm : s.modal <;> cases ht : t.tooltip <;>
    simp [modalDispose, tooltipDispose, hm, ht]

/-- C8: `BsCodeBlock._ensureResources` is idempotent on the document-global
resource counts — running it any positive number of times from any document
state equals running it once, each injection being guarded by its existence
check — and materializing three instances against a fresh document yields
exactly one injected element of each kind. -/
theorem resource_injection_idempotent (hljs : Bool) (d : DocSt) (n : Nat) :
    ensureResources hljs (ensureResources hljs d) = ensureResources hljs d ∧
    (ensureResources hljs)^[n + 1] d = ensureResources hljs d ∧
    (ensureResources false)^[3] emptyDoc =
      { styleTag := 1, hljsCss := 1, iconsCss := 1, hljsScript := 1 } :=
  ⟨ensureResources_idem hljs d, ensureResources_iterate hljs d n, by decide⟩

/-- C9: the retry interval installed by `BsCodeBlock._highlight` is bounded:
whatever the arrival time of `window.hljs` (including never), after any number
of 100 ms ticks the callback has run at most 50 times — the 5000 ms give-up
timeout clears the interval, as the concrete run with the library never
arriving shows (inactive after 60 ticks). -/
theorem highlight_poll_bounded (hljsAt : Option Nat) (n : Nat) :
    ((pollTick hljsAt)^[n] pollInit).polls ≤ 50 ∧
    ((pollTick none)^[60] pollInit).intervalActive = false :=
  ⟨(pollInv_iterate hljsAt n).2, by set_option maxRecDepth 40000 in decide⟩

/-- C10: the generated inner `div.modal` always carries the `fade` class: the
condition `hasAttribute('fade') || getAttribute('fade') !== 'false'` is true
for every state of the `fade` attribute — absent (the getAttribute side,
`null !== 'false'`), present as `fade="false"` (the hasAttribute side), or
present with any other value. -/
theorem fade_class_always_present (fadeAttr hostCls : Option String) :
    "fade" ∈ modalClassList fadeAttr hostCls := by
  have h : fadeEnabled fadeAttr = true := by
    cases fadeAttr with
    | none => rfl
    | some v => simp [fadeEnabled]
  simp [modalClassList, h]
